import Mathlib

/-!
Shallow embedding of the date/time availability picker and booking wizard of
the videography-site repository (src/App.tsx), together with theorems that
settle the specification claims about it.

Modelling conventions:
* A JavaScript `Date` instant is modelled as a natural number of seconds since
  a local epoch (millisecond precision is irrelevant to every property here;
  daylight-saving jumps are ignored, as the code only ever does local-clock
  arithmetic).  A local calendar day therefore spans `daySecs = 86400` seconds,
  `stripTime` models `setHours(0,0,0,0)`, and `toDateString()` equality is
  equality of `stripTime` values.
* Time slots are the exact strings the code builds (`"HH:mm"`); parsing mirrors
  `slot.split(':').map(Number)` via a structural split on the colon character.
* React `useState` updates are modelled by explicit state passing; a `useEffect`
  body or an event handler becomes a function from the state it reads to the
  state updates it performs.
-/

namespace Booking

/-- Seconds in one local calendar day. -/
def daySecs : Nat := 86400

/-- Model of `setHours(0,0,0,0)` / `getTodayLocal` and `stripTime` in the code:
round an instant down to the midnight of its local calendar day. -/
def stripTime (t : Nat) : Nat := t / daySecs * daySecs

/-- `getTodayLocal()`: today's date with the time stripped, for clock `now`. -/
def getTodayLocal (now : Nat) : Nat := stripTime now

/-- `isPastDate(date)`: the date's calendar day is strictly before today's. -/
def isPastDate (date now : Nat) : Bool := stripTime date < stripTime now

/-- `isTodayDate(date)`: calendar-day equality with `now`. -/
def isTodayDate (date now : Nat) : Bool := stripTime date == stripTime now

/-- `String(n).padStart(2, '0')` for `n < 100`: the two decimal digits of n. -/
def pad2 (n : Nat) : String := String.mk [Char.ofNat (48 + n / 10), Char.ofNat (48 + n % 10)]

/-- `getAllTimeSlots()` from src/App.tsx: for hour = 9..21 and minute in
[0, 30], push `pad(hour) ++ ":" ++ pad(minute)`.  (`List.range' 9 13` is the
hour sequence 9, 10, ..., 21 of the `for` loop.) -/
def getAllTimeSlots : List String :=
  (List.range' 9 13).flatMap (fun hour => [0, 30].map (fun minute => pad2 hour ++ ":" ++ pad2 minute))

/-- Split a character list at every occurrence of `c` (model of JS
`String.prototype.split` with a single-character separator). -/
def splitOnChar (c : Char) : List Char → List (List Char)
  | [] => [[]]
  | x :: xs =>
    if x = c then [] :: splitOnChar c xs
    else
      match splitOnChar c xs with
      | [] => [[x]]
      | y :: ys => (x :: y) :: ys

/-- `Number(s)` for a string of decimal digits. -/
def digitsToNat (l : List Char) : Nat := l.foldl (fun acc c => acc * 10 + (c.toNat - 48)) 0

/-- `slot.split(':').map(Number)` destructured as `[hour, minute]`. -/
def parseHM (slot : String) : Nat × Nat :=
  match (splitOnChar ':' slot.data).map digitsToNat with
  | h :: m :: _ => (h, m)
  | _ => (0, 0)

/-- Minute-of-day value of a slot (`h * 60 + m`), as computed at several points
in the code. -/
def slotMinutes (slot : String) : Nat :=
  (parseHM slot).1 * 60 + (parseHM slot).2

/-- `isSlotDisabled(date, slot)` from src/App.tsx, with the clock `now` passed
explicitly (the code reads `new Date()` fresh inside the function):
today-check via `toDateString()` equality, then compare the instant
`date` at `slot`'s hour:minute (via `new Date(date); setHours(h, m, 0, 0)`)
against `now` with strict `<`. -/
def isSlotDisabled (date now : Nat) (slot : String) : Bool :=
  let isToday := stripTime date == stripTime now
  if !isToday then
    false
  else
    let slotDate := stripTime date + (parseHM slot).1 * 3600 + (parseHM slot).2 * 60
    decide (slotDate < now)

/-- `getAvailableTimeSlots(date)`: all slots minus the disabled ones. -/
def getAvailableTimeSlots (date now : Nat) : List String :=
  getAllTimeSlots.filter (fun slot => !isSlotDisabled date now slot)

/-- Modelled from the spec's words for the availability filter (section 4.2):
never disabled on a calendar day other than now's; on now's own calendar day,
disabled iff the instant formed from that date and the slot's hour:minute is
strictly before now.  Stated independently of `isSlotDisabled` so the two can
be compared. -/
def isDisabledSpec (date now : Nat) (slot : String) : Bool :=
  if date / daySecs == now / daySecs then
    decide (stripTime date + slotMinutes slot * 60 < now)
  else
    false

/-- Loop body of `getNextAvailableDate` in src/App.tsx: the `for (i < 365)`
loop becomes structural recursion on the remaining iteration count; fuel
exhaustion is the code's `return getTodayLocal()` fallback. -/
def getNextAvailableDateAux (now : Nat) : Nat → Nat → Nat
  | 0, _ => getTodayLocal now
  | n + 1, checkDate =>
    if 0 < (getAvailableTimeSlots checkDate now).length then checkDate
    else getNextAvailableDateAux now n (checkDate + daySecs)

/-- `getNextAvailableDate()` from src/App.tsx: scan forward from today's
midnight for up to 365 days, returning the first date with a non-empty
available-slot list, else fall back to today. -/
def getNextAvailableDate (now : Nat) : Nat :=
  getNextAvailableDateAux now 365 (stripTime now)

/-- The `useState` initializer of `selectedDate` in `DateTimePickerModal`:
if an initial date was supplied, parse it and keep it unless it is a past
date; in every other case return today's midnight.  The already-parsed
midnight instant stands in for the `initialDate.split('-')` parsing; `none`
is the absent/empty `initialDate` prop. -/
def initialSelectedDate (initialDate : Option Nat) (now : Nat) : Nat :=
  match initialDate with
  | some parsed => if !isPastDate parsed now then parsed else getTodayLocal now
  | none => getTodayLocal now

/-- `Math.abs(a - b)` on integers, over Nat. -/
def absDiff (a b : Nat) : Nat := if a ≤ b then b - a else a - b

/-- One `forEach` iteration of the slot auto-correct effect in
`DateTimePickerModal`: the accumulator carries `(nearestSlot, minDiff)`, with
`none` standing for the initial `Infinity` (every finite diff beats it). -/
def reconcileStep (currentMinutes : Nat) (acc : String × Option Nat) (slot : String) :
    String × Option Nat :=
  let diff := absDiff (slotMinutes slot) currentMinutes
  match acc.2 with
  | none => (slot, some diff)
  | some m => if diff < m then (slot, some diff) else acc

/-- The slot auto-correct effect of `DateTimePickerModal` as a function:
if the current slot is still available it is left unchanged, otherwise the
`forEach` scan (initial nearest = `availableSlots[0]`, initial minDiff =
Infinity) picks the replacement.  `headD cur` models `availableSlots[0]`; the
default is never reached because the effect only runs with a non-empty
available list. -/
def reconcileSlot (cur : String) (avail : List String) : String :=
  if avail.contains cur then cur
  else (avail.foldl (reconcileStep (slotMinutes cur)) (avail.headD cur, none)).1

/-- Modelled from the spec's words for `reconcileSlot` (section 4.3): the
element of the list whose minute-of-day value has the smallest absolute
difference from `curMin`, ties broken in favor of the earlier element
(first match wins under a strict comparison). -/
def nearestSlotSpec (curMin : Nat) : List String → String
  | [] => ""
  | [s] => s
  | s :: t :: ts =>
    if absDiff (slotMinutes s) curMin ≤ absDiff (slotMinutes (nearestSlotSpec curMin (t :: ts))) curMin
    then s
    else nearestSlotSpec curMin (t :: ts)

/-- One step of the arrow-key index update in `DesktopTimePicker.handleKeyDown`:
`Math.min(i + 1, len - 1)` going down, `Math.max(i - 1, 0)` going up (the
latter is truncated subtraction over Nat). -/
def navStep (down : Bool) (len i : Nat) : Nat :=
  if down then min (i + 1) (len - 1) else max (i - 1) 0

/-- The `do ... while (disabledSlots.includes(allSlots[newIndex]) && newIndex
!== index)` loop of `handleKeyDown`, with explicit fuel: `none` means the loop
has not exited within `fuel` iterations, `some j` is the exit value of
`newIndex`. -/
def navLoop (allSlots disabled : List String) (index : Nat) (down : Bool) :
    Nat → Nat → Option Nat
  | 0, _ => none
  | fuel + 1, i =>
    let j := navStep down allSlots.length i
    if disabled.contains (allSlots.getD j "") && j != index then
      navLoop allSlots disabled index down fuel j
    else
      some j

/-- The commit guard after the loop in `handleKeyDown`: the slot at the exit
index is selected only if it is not disabled. -/
def navCommit (allSlots disabled : List String) (j : Nat) : Option String :=
  if disabled.contains (allSlots.getD j "") then none else some (allSlots.getD j "")

/-- `WheelPicker`: `Math.round(scrollTop / ITEM_HEIGHT)` for an integral pixel
offset and `ITEM_HEIGHT = 44` (round-half-up equals adding 22 then flooring). -/
def wheelIndex (scrollTop : Nat) : Nat := (scrollTop + 22) / 44

/-- `Math.max(0, Math.min(selectedIndex, items.length - 1))` in `WheelPicker`. -/
def clampIndex (i len : Nat) : Nat := max 0 (min i (len - 1))

/-- `WheelPicker.handleScroll`: compute and clamp the index; call `onSelect`
(modelled as `some value`) only when the item differs from the current
selection. -/
def handleScroll (items : List String) (selectedValue : String) (scrollTop : Nat) :
    Option String :=
  let clamped := clampIndex (wheelIndex scrollTop) items.length
  if items.getD clamped "" != selectedValue then some (items.getD clamped "") else none

/-- `WheelPicker.handleScrollEnd`: the snap position `clampedIndex * 44`
handed to `scrollTo` (no selection is committed here). -/
def handleScrollEnd (items : List String) (scrollTop : Nat) : Nat :=
  clampIndex (wheelIndex scrollTop) items.length * 44

/-- The picker modal's mode prop. -/
inductive PickerMode
  | date
  | time
deriving DecidableEq, BEq

/-- The `disabled` condition of the modal's OK button:
`(mode === 'time' && availableSlots.length === 0) || (mode === 'date' &&
isPastDate(selectedDate))`. -/
def okDisabled (mode : PickerMode) (selectedDate now : Nat) : Bool :=
  (mode == PickerMode.time && (getAvailableTimeSlots selectedDate now).length == 0)
  || (mode == PickerMode.date && isPastDate selectedDate now)

/-- `handleConfirm` as reachable through the OK button: produces the confirm
payload only when the button is enabled.  The payload keeps the selected date
instant itself (the code renders it as `YYYY-MM-DD`) and the time string
`mode === 'time' ? selectedSlot : '09:00'` exactly as in `formatOutput`. -/
def confirmViaOk (mode : PickerMode) (selectedDate now : Nat) (selectedSlot : String) :
    Option (Nat × String) :=
  if okDisabled mode selectedDate now then none
  else some (selectedDate, if mode == PickerMode.time then selectedSlot else "09:00")

/-- The contact-details record of `BookPage`'s form state. -/
structure ContactDetails where
  name : String
  email : String
  phone : String
  company : String
  brief : String
  budget : String
deriving DecidableEq

/-- `formData` of `BookPage` (the BookingState of the spec). -/
structure BookingState where
  serviceType : String
  packageId : String
  date : String
  time : String
  details : ContactDetails
deriving DecidableEq

/-- The wizard-relevant component state of `BookPage`. -/
structure WizardState where
  step : Nat
  formData : BookingState
  submitted : Bool
deriving DecidableEq

/-- `useState` initial values of `BookPage`: step 1, all fields empty. -/
def initialWizard : WizardState :=
  { step := 1
    formData :=
      { serviceType := ""
        packageId := ""
        date := ""
        time := ""
        details := { name := "", email := "", phone := "", company := "", brief := "", budget := "" } }
    submitted := false }

/-- `handleNext`: `setStep(p => p + 1)`. -/
def handleNext (w : WizardState) : WizardState := { w with step := w.step + 1 }

/-- `handleBack`: `setStep(p => p - 1)` (only reachable from steps 2..4, where
Nat truncated subtraction agrees with JS). -/
def handleBack (w : WizardState) : WizardState := { w with step := w.step - 1 }

/-- A step-1 service button: `updateField('serviceType', type); handleNext()`. -/
def selectService (w : WizardState) (t : String) : WizardState :=
  handleNext { w with formData := { w.formData with serviceType := t } }

/-- Outcome of the awaited `fetch` in `handleSubmit`: either a response whose
parsed body has the given `success` flag, or the call itself (or `res.json()`)
threw. -/
inductive TransportResult
  | response : Bool → TransportResult
  | thrown
deriving DecidableEq

/-- What `handleSubmit` leaves behind: whether `alert(...)` ran, plus the
resulting component state. -/
structure SubmitOutcome where
  alerted : Bool
  state : WizardState
deriving DecidableEq

/-- `BookPage.handleSubmit` over the model: a non-success body alerts and
returns (state untouched); success sets `submitted`; a thrown call propagates
out of the async handler, running neither the alert nor any state update. -/
def handleSubmit (w : WizardState) (r : TransportResult) : SubmitOutcome :=
  match r with
  | TransportResult.thrown => { alerted := false, state := w }
  | TransportResult.response false => { alerted := true, state := w }
  | TransportResult.response true => { alerted := false, state := { w with submitted := true } }

/-! ## Helper lemmas -/

/-- Two instants strip to the same midnight exactly when their day quotients
agree. -/
lemma stripTime_eq_iff (a b : Nat) : stripTime a = stripTime b ↔ a / daySecs = b / daySecs := by
  unfold stripTime daySecs
  omega

/-- On a calendar day other than now's, no slot is ever disabled. -/
lemma isSlotDisabled_of_not_today (date now : Nat) (slot : String)
    (h : stripTime date ≠ stripTime now) : isSlotDisabled date now slot = false := by
  have hb : (stripTime date == stripTime now) = false := beq_eq_false_iff_ne.mpr h
  simp [isSlotDisabled, hb]

/-- On a calendar day other than now's, the available list is the whole
catalog. -/
lemma getAvailable_of_not_today (date now : Nat) (h : stripTime date ≠ stripTime now) :
    getAvailableTimeSlots date now = getAllTimeSlots := by
  unfold getAvailableTimeSlots
  apply List.filter_eq_self.mpr
  intro s _
  simp [isSlotDisabled_of_not_today date now s h]

/-- The catalog the code generates has 26 entries. -/
lemma getAllTimeSlots_length : getAllTimeSlots.length = 26 := by decide

/-! ## Claim theorems -/

/-- Claim C1: the slot generator is pure with no inputs and always returns the
same ordered catalog; the claim says 25 slots ending at 21:00, but evaluating
the code shows the catalog has 26 strictly increasing half-hour slots, first
"09:00" and last "21:30" (the loop also emits minute 30 of hour 21),
contradicting the function's own header comment of a 9:00 AM - 9:00 PM range. -/
theorem C1_catalog_eval :
    getAllTimeSlots =
      ["09:00", "09:30", "10:00", "10:30", "11:00", "11:30", "12:00", "12:30",
       "13:00", "13:30", "14:00", "14:30", "15:00", "15:30", "16:00", "16:30",
       "17:00", "17:30", "18:00", "18:30", "19:00", "19:30", "20:00", "20:30",
       "21:00", "21:30"]
    ∧ getAllTimeSlots.length = 26
    ∧ getAllTimeSlots.length ≠ 25
    ∧ getAllTimeSlots.getLastD "" = "21:30"
    ∧ List.Pairwise (fun a b => slotMinutes a + 30 ≤ slotMinutes b) getAllTimeSlots := by
  refine ⟨by decide, by decide, by decide, by decide, by decide⟩

/-- Claim C2: the code's disabled test agrees with the spec-worded one
everywhere (never disabled on a different calendar day; on now's own day,
disabled iff the slot's instant on that date is strictly before now), and the
available list is the catalog minus the disabled slots in catalog order. -/
theorem C2_availability_filter :
    (∀ date now : Nat, ∀ slot : String,
      isSlotDisabled date now slot = isDisabledSpec date now slot)
    ∧ (∀ date now : Nat, ∀ slot : String,
      stripTime date ≠ stripTime now → isSlotDisabled date now slot = false)
    ∧ (∀ date now : Nat,
      getAvailableTimeSlots date now =
        getAllTimeSlots.filter (fun slot => !isSlotDisabled date now slot)) := by
  refine ⟨?_, ?_, fun _ _ => rfl⟩
  · intro date now slot
    by_cases h : date / daySecs = now / daySecs
    · have hs : stripTime date = stripTime now := (stripTime_eq_iff date now).mpr h
      have hb : (stripTime date == stripTime now) = true := beq_iff_eq.mpr hs
      have hb2 : (date / daySecs == now / daySecs) = true := beq_iff_eq.mpr h
      simp only [isSlotDisabled, isDisabledSpec, hb, hb2, Bool.not_true, Bool.false_eq_true,
        if_false, if_true]
      apply decide_eq_decide.mpr
      unfold slotMinutes
      omega
    · have hs : stripTime date ≠ stripTime now := fun hc => h ((stripTime_eq_iff date now).mp hc)
      have hb2 : (date / daySecs == now / daySecs) = false := beq_eq_false_iff_ne.mpr h
      rw [isSlotDisabled_of_not_today date now slot hs]
      simp [isDisabledSpec, hb2]
  · exact fun date now slot h => isSlotDisabled_of_not_today date now slot h

/-- Witness for C2: a concrete different-day instance of the second conjunct. -/
theorem C2_witness : isSlotDisabled 0 172800 "09:00" = false :=
  C2_availability_filter.2.1 0 172800 "09:00" (by decide)

/-- The first-wins nearest pick never has a larger distance than the list
head's distance. -/
lemma nearestSlotSpec_le_head (curMin : Nat) (s : String) (l : List String) :
    absDiff (slotMinutes (nearestSlotSpec curMin (s :: l))) curMin
      ≤ absDiff (slotMinutes s) curMin := by
  cases l with
  | nil => simp [nearestSlotSpec]
  | cons t ts =>
    simp only [nearestSlotSpec]
    split
    · exact Nat.le_refl _
    · omega

/-- The `forEach` fold of the auto-correct effect, started after its first
iteration, computes exactly the spec's first-wins nearest element. -/
lemma reconcile_fold_spec (curMin : Nat) (l : List String) :
    ∀ best : String,
      (l.foldl (reconcileStep curMin) (best, some (absDiff (slotMinutes best) curMin))).1
        = nearestSlotSpec curMin (best :: l) := by
  induction l with
  | nil => intro best; simp [nearestSlotSpec]
  | cons s t ih =>
    intro best
    rw [List.foldl_cons]
    by_cases h : absDiff (slotMinutes s) curMin < absDiff (slotMinutes best) curMin
    · have hstep : reconcileStep curMin (best, some (absDiff (slotMinutes best) curMin)) s
          = (s, some (absDiff (slotMinutes s) curMin)) := by
        simp [reconcileStep, h]
      rw [hstep, ih s]
      have hle := nearestSlotSpec_le_head curMin s t
      have hR : nearestSlotSpec curMin (best :: s :: t)
          = if absDiff (slotMinutes best) curMin
              ≤ absDiff (slotMinutes (nearestSlotSpec curMin (s :: t))) curMin
            then best else nearestSlotSpec curMin (s :: t) := rfl
      rw [hR, if_neg (by omega)]
    · have hstep : reconcileStep curMin (best, some (absDiff (slotMinutes best) curMin)) s
          = (best, some (absDiff (slotMinutes best) curMin)) := by
        simp [reconcileStep, h]
      rw [hstep, ih best]
      cases t with
      | nil =>
        show best
          = if absDiff (slotMinutes best) curMin ≤ absDiff (slotMinutes s) curMin
            then best else s
        rw [if_pos (by omega)]
      | cons u us =>
        have hs2 : nearestSlotSpec curMin (s :: u :: us)
            = if absDiff (slotMinutes s) curMin
                ≤ absDiff (slotMinutes (nearestSlotSpec curMin (u :: us))) curMin
              then s else nearestSlotSpec curMin (u :: us) := rfl
        have hL : nearestSlotSpec curMin (best :: u :: us)
            = if absDiff (slotMinutes best) curMin
                ≤ absDiff (slotMinutes (nearestSlotSpec curMin (u :: us))) curMin
              then best else nearestSlotSpec curMin (u :: us) := rfl
        have hR : nearestSlotSpec curMin (best :: s :: u :: us)
            = if absDiff (slotMinutes best) curMin
                ≤ absDiff (slotMinutes (nearestSlotSpec curMin (s :: u :: us))) curMin
              then best else nearestSlotSpec curMin (s :: u :: us) := rfl
        rw [hL, hR, hs2]
        split_ifs <;> first | rfl | (exfalso; omega)

/-- Claim C3: reconciliation leaves a still-available slot unchanged; for a
non-empty available list not containing the current slot it returns the
available slot of minimal minute-of-day distance, with ties broken in favor of
the first match in list order (the spec-worded `nearestSlotSpec`); and on the
spec's example, available = [09:00, 09:30, 10:00] with current = 09:15 yields
09:00. -/
theorem C3_reconciliation :
    (∀ (cur : String) (avail : List String),
      avail.contains cur = true → reconcileSlot cur avail = cur)
    ∧ (∀ (cur s : String) (t : List String), (s :: t).contains cur = false →
        reconcileSlot cur (s :: t) = nearestSlotSpec (slotMinutes cur) (s :: t))
    ∧ reconcileSlot "09:15" ["09:00", "09:30", "10:00"] = "09:00"
    ∧ nearestSlotSpec (slotMinutes "09:15") ["09:00", "09:30", "10:00"] = "09:00" := by
  refine ⟨?_, ?_, by decide, by decide⟩
  · intro cur avail h
    unfold reconcileSlot
    rw [if_pos h]
  · intro cur s t h
    unfold reconcileSlot
    rw [if_neg (fun hc => by rw [h] at hc; exact Bool.false_ne_true hc)]
    rw [List.foldl_cons]
    have hstep : reconcileStep (slotMinutes cur) ((s :: t).headD cur, none) s
        = (s, some (absDiff (slotMinutes s) (slotMinutes cur))) := rfl
    rw [hstep, reconcile_fold_spec (slotMinutes cur) t s]

/-- Witness for C3: a concrete instance of each hypothesis-bearing conjunct. -/
theorem C3_witness :
    reconcileSlot "09:00" ["09:00", "09:30"] = "09:00"
    ∧ reconcileSlot "10:00" ["09:00", "09:30"]
        = nearestSlotSpec (slotMinutes "10:00") ["09:00", "09:30"] :=
  ⟨C3_reconciliation.1 "09:00" ["09:00", "09:30"] (by decide),
   C3_reconciliation.2.1 "10:00" "09:00" ["09:30"] (by decide)⟩

/-- Counterexample to claim C4: with no initial date and a clock of 22:00 on
day 0 (all of today's slots already passed, so today's available set is
empty), the initializer seeds today's midnight (0), not the next date with an
available slot (86400, which is what the unused `getNextAvailableDate` helper
would have produced). -/
theorem C4_counterexample :
    initialSelectedDate none 79200 = 0
    ∧ getAvailableTimeSlots 0 79200 = []
    ∧ getNextAvailableDate 79200 = 86400
    ∧ initialSelectedDate none 79200 ≠ getNextAvailableDate 79200 := by
  refine ⟨by decide, by decide, by decide, by decide⟩

/-- Claim C4 as amended: the selection state is seeded from the supplied
initial date when that date is not past; otherwise (initial absent, or past)
it is seeded to today's midnight — not to the next date with an available
slot. -/
theorem C4_amended : ∀ now parsed : Nat,
    (isPastDate parsed now = false → initialSelectedDate (some parsed) now = parsed)
    ∧ (isPastDate parsed now = true → initialSelectedDate (some parsed) now = getTodayLocal now)
    ∧ initialSelectedDate none now = getTodayLocal now := by
  intro now parsed
  refine ⟨fun h => ?_, fun h => ?_, rfl⟩ <;> simp [initialSelectedDate, h]

/-- Witness for C4's amended claim: a valid future initial date is kept. -/
theorem C4_witness : initialSelectedDate (some 86400) 0 = 86400 :=
  (C4_amended 0 86400).1 (by decide)

/-- Once the arrow-key loop of `handleKeyDown` reaches index 0 going up while
slot 0 is disabled and the start index is not 0, it stays at index 0 forever:
`Math.max(0 - 1, 0) = 0`, which is still disabled and still differs from the
start index. -/
lemma navLoop_stuck_at_zero : ∀ fuel : Nat,
    navLoop getAllTimeSlots ["09:00", "09:30"] 2 false fuel 0 = none := by
  intro fuel
  induction fuel with
  | zero => rfl
  | succ n ih =>
    show navLoop getAllTimeSlots ["09:00", "09:30"] 2 false n 0 = none
    exact ih

/-- Claim C5 fails on the code: with today's first two slots disabled (clock
just after 09:30) and the focus on the first enabled slot "10:00" (index 2),
pressing ArrowUp makes the `do/while` loop of
`DesktopTimePicker.handleKeyDown` run forever — for every iteration budget the
loop has not exited.  The claim says the handler terminates without moving. -/
theorem C5_keydown_diverges : ∀ fuel : Nat,
    navLoop getAllTimeSlots ["09:00", "09:30"] 2 false fuel 2 = none := by
  intro fuel
  match fuel with
  | 0 => rfl
  | 1 => rfl
  | n + 2 =>
    show navLoop getAllTimeSlots ["09:00", "09:30"] 2 false n 0 = none
    exact navLoop_stuck_at_zero n

/-- Counterexample to claim C6: when the transport call itself throws, the
exception propagates out of the async handler — no user-visible alert is
surfaced (the claim requires one for every failing attempt). -/
theorem C6_counterexample :
    (handleSubmit { initialWizard with step := 4 } TransportResult.thrown).alerted = false := rfl

/-- Claim C6 as amended: for every non-successful outcome the wizard keeps its
step, its entire BookingState and its unsubmitted status (so submission is
retryable), but the alert is surfaced only when a response was received and
reported non-success; a thrown call surfaces nothing. -/
theorem C6_amended : ∀ (w : WizardState) (r : TransportResult),
    r ≠ TransportResult.response true →
    (handleSubmit w r).state.step = w.step
    ∧ (handleSubmit w r).state.formData = w.formData
    ∧ (handleSubmit w r).state.submitted = w.submitted
    ∧ ((handleSubmit w r).alerted = true ↔ r = TransportResult.response false) := by
  intro w r h
  cases r with
  | thrown => simp [handleSubmit]
  | response b =>
    cases b with
    | false => simp [handleSubmit]
    | true => exact absurd rfl h

/-- Witness for C6's amended claim at a thrown transport call. -/
theorem C6_witness :
    (handleSubmit { initialWizard with step := 4 } TransportResult.thrown).state.formData
      = ({ initialWizard with step := 4 } : WizardState).formData :=
  (C6_amended { initialWizard with step := 4 } TransportResult.thrown (by decide)).2.1

/-- Unfolding of one iteration of the `getNextAvailableDate` scan. -/
lemma nextAux_succ (now n checkDate : Nat) :
    getNextAvailableDateAux now (n + 1) checkDate =
      if 0 < (getAvailableTimeSlots checkDate now).length then checkDate
      else getNextAvailableDateAux now n (checkDate + daySecs) := rfl

/-- Tomorrow's midnight is on a different calendar day than now. -/
lemma stripTime_tomorrow_ne (now : Nat) : stripTime (stripTime now + daySecs) ≠ stripTime now := by
  unfold stripTime daySecs
  omega

/-- Claim C7: the forward scan returns today when today still has an available
slot and tomorrow otherwise; tomorrow's available set is always non-empty (all
future days are fully open), so the first non-empty date is always found; the
fuel-exhaustion fallback of the scan is today. -/
theorem C7_next_available_date : ∀ now : Nat,
    getNextAvailableDate now =
      (if 0 < (getAvailableTimeSlots (getTodayLocal now) now).length
       then getTodayLocal now
       else getTodayLocal now + daySecs)
    ∧ 0 < (getAvailableTimeSlots (getTodayLocal now + daySecs) now).length
    ∧ (∀ checkDate : Nat, getNextAvailableDateAux now 0 checkDate = getTodayLocal now) := by
  intro now
  have htom : 0 < (getAvailableTimeSlots (stripTime now + daySecs) now).length := by
    rw [getAvailable_of_not_today (stripTime now + daySecs) now (stripTime_tomorrow_ne now),
      getAllTimeSlots_length]
    omega
  refine ⟨?_, htom, fun _ => rfl⟩
  unfold getNextAvailableDate
  simp only [getTodayLocal]
  rw [show (365 : Nat) = 364 + 1 from rfl, nextAux_succ]
  split
  · rfl
  · rw [show (364 : Nat) = 363 + 1 from rfl, nextAux_succ, if_pos htom]

/-- Claim C8: going back decrements the step by exactly one and leaves every
field of the booking state unchanged; in the spec's scenario, choosing
"editing" at step 1 advances to step 2, and going back returns to step 1 with
serviceType still "editing". -/
theorem C8_back_preserves_state : ∀ w : WizardState, 1 < w.step →
    ((handleBack w).step = w.step - 1
      ∧ (handleBack w).formData.serviceType = w.formData.serviceType
      ∧ (handleBack w).formData.packageId = w.formData.packageId
      ∧ (handleBack w).formData.date = w.formData.date
      ∧ (handleBack w).formData.time = w.formData.time
      ∧ (handleBack w).formData.details = w.formData.details)
    ∧ ((selectService initialWizard "editing").step = 2
      ∧ (handleBack (selectService initialWizard "editing")).step = 1
      ∧ (handleBack (selectService initialWizard "editing")).formData.serviceType
          = "editing") := by
  intro w _
  exact ⟨⟨rfl, rfl, rfl, rfl, rfl, rfl⟩, rfl, rfl, rfl⟩

/-- Witness for C8 at a step-2 state. -/
theorem C8_witness : (handleBack { initialWizard with step := 2 }).step = 1 :=
  (C8_back_preserves_state { initialWizard with step := 2 } (by decide)).1.1

/-- Claim C9: the OK button is disabled exactly in time mode with an empty
available set or in date mode with a past selected date, so a payload can only
be delivered while enabled — in date mode the delivered date is the selected
non-past date, and in time mode the available set is non-empty. -/
theorem C9_confirm_guard :
    ∀ (mode : PickerMode) (d now : Nat) (slot : String) (p : Nat × String),
    confirmViaOk mode d now slot = some p →
    okDisabled mode d now = false
    ∧ (mode = PickerMode.date → isPastDate d now = false ∧ p.1 = d)
    ∧ (mode = PickerMode.time → (getAvailableTimeSlots d now).length ≠ 0) := by
  intro mode d now slot p h
  unfold confirmViaOk at h
  by_cases hd : okDisabled mode d now = true
  · rw [if_pos hd] at h
    exact absurd h (by simp)
  · have hdf : okDisabled mode d now = false := by
      cases hh : okDisabled mode d now
      · rfl
      · exact absurd hh hd
    rw [if_neg hd] at h
    have hp : p.1 = d := by
      have := Option.some.inj h
      rw [this.symm]
    refine ⟨hdf, fun hm => ?_, fun hm => ?_⟩
    · subst hm
      have hdd : isPastDate d now = false := hdf
      exact ⟨hdd, hp⟩
    · subst hm
      have hdt : (((getAvailableTimeSlots d now).length == 0) || false) = false := hdf
      simp only [Bool.or_false] at hdt
      intro h0
      rw [h0] at hdt
      simp at hdt

/-- Witness for C9: confirming in date mode with a non-past date delivers that
date. -/
theorem C9_witness : isPastDate 86400 86400 = false ∧ ((86400 : Nat), "09:00").1 = 86400 :=
  (C9_confirm_guard PickerMode.date 86400 86400 "10:00" (86400, "09:00") (by decide)).2.1 rfl

/-- Claim C10: for a non-empty item list the wheel adapter clamps its computed
index below the length, every selection it commits is an element of the list,
and the scroll-end snap position stays within the last item's offset. -/
theorem C10_wheel_in_bounds :
    ∀ (items : List String) (sel v : String) (scrollTop : Nat), items ≠ [] →
    (handleScroll items sel scrollTop = some v → v ∈ items)
    ∧ clampIndex (wheelIndex scrollTop) items.length < items.length
    ∧ handleScrollEnd items scrollTop ≤ (items.length - 1) * 44 := by
  intro items sel v st hne
  have hlen : 0 < items.length := List.length_pos.mpr hne
  have hc : clampIndex (wheelIndex st) items.length < items.length := by
    unfold clampIndex
    omega
  refine ⟨?_, hc, ?_⟩
  · intro h
    simp only [handleScroll] at h
    split at h
    · have hv := Option.some.inj h
      rw [← hv, List.getD_eq_getElem?_getD, List.getElem?_eq_getElem hc]
      exact List.getElem_mem hc
    · exact absurd h (by simp)
  · unfold handleScrollEnd
    exact Nat.mul_le_mul_right 44 (by unfold clampIndex; omega)

/-- Witness for C10 on a concrete two-item wheel. -/
theorem C10_witness :
    clampIndex (wheelIndex 100) (["09:00", "09:30"] : List String).length
      < (["09:00", "09:30"] : List String).length :=
  (C10_wheel_in_bounds ["09:00", "09:30"] "09:00" "09:30" 100 (by decide)).2.1

end Booking
